import Mathlib

/-!
Verification of the schema-driven form engine and its two client pages
(encryption-at-rest settings, account listing) of the webadmin repository.

Domain types, the crypto-at-rest schema instance, the domain mapper and the
pagination logic are translated from `src/pages/account/crypto.rs` and
`src/pages/directory/accounts/list.rs`.  The generic form engine
(`core::form::FormData`, `core::schema`) is not part of the sources; it is
modelled from the specification (sections 4.2, 4.3 of the design document).
-/

namespace Webadmin

/-! ## Domain types (crypto.rs, lines 50-75, 319-359) -/

/-- `enum Algorithm { Aes128, Aes256 }` (crypto.rs). -/
inductive Algorithm where
  | Aes128
  | Aes256
deriving DecidableEq, Repr

/-- `enum EncryptionMethod { PGP, SMIME }` (crypto.rs). -/
inductive EncryptionMethod where
  | PGP
  | SMIME
deriving DecidableEq, Repr

/-- `enum EncryptionType { PGP { algo, certs }, SMIME { algo, certs }, Disabled }`
(crypto.rs). -/
inductive EncryptionType where
  | PGP (algo : Algorithm) (certs : String)
  | SMIME (algo : Algorithm) (certs : String)
  | Disabled
deriving DecidableEq, Repr

/-- `Algorithm::as_str` (crypto.rs lines 340-347). -/
def Algorithm.as_str : Algorithm → String
  | .Aes128 => "aes128"
  | .Aes256 => "aes256"

/-- `impl FromStr for Algorithm` (crypto.rs lines 349-359); Rust's
`Result<Self, ()>` is rendered as `Option`, `Err(())` as `none`. -/
def Algorithm.from_str (s : String) : Option Algorithm :=
  if s = "aes128" then some .Aes128
  else if s = "aes256" then some .Aes256
  else none

/-- `EncryptionMethod::as_str` (crypto.rs lines 319-326). -/
def EncryptionMethod.as_str : EncryptionMethod → String
  | .PGP => "pgp"
  | .SMIME => "smime"

/-- `impl FromStr for EncryptionMethod` (crypto.rs lines 328-338); `Err(())`
is rendered as `none`. -/
def EncryptionMethod.from_str (s : String) : Option EncryptionMethod :=
  if s = "pgp" then some .PGP
  else if s = "smime" then some .SMIME
  else none

/-! ## Generic form engine

Modelled from the spec: the `core::form` / `core::schema` modules are not in
the sources, only their callers are.  Sections 3 and 4.1-4.3 of the design
document describe Field Definitions (name, value type, default, validators,
visibility condition), the Form Data Instance (string-valued store plus
per-field error state), `set`, typed `get`, `is_visible` and `validate`. -/

/-- Modelled from the spec: validator kinds, "`Required` (fails iff decoded
value is absent/empty)"; mirrors `Validator::Required` used by crypto.rs. -/
inductive Validator where
  | required
deriving DecidableEq, Repr

/-- Modelled from the spec: a select field's data source; mirrors
`Source::Static(&[(value, label)])` used by crypto.rs. -/
inductive Source where
  | static_opts (opts : List (String × String))
deriving DecidableEq, Repr

/-- Modelled from the spec: a field's value type; mirrors `Type::Text` and
`Type::Select { source, multi }` used by crypto.rs. -/
inductive FieldType where
  | text
  | select (source : Source) (multi : Bool)
deriving DecidableEq, Repr

/-- Modelled from the spec: a visibility condition "show iff field X equals
one of {v1, v2}"; mirrors the `display_if_eq(field, values)` builder call. -/
structure Condition where
  field : String
  values : List String
deriving DecidableEq, Repr

/-- Modelled from the spec: one Field Definition — name, value type, optional
default, ordered validators, optional visibility condition. -/
structure Field where
  name : String
  typ : FieldType
  default : Option String
  validators : List Validator
  display : Option Condition
deriving DecidableEq, Repr

/-- Modelled from the spec: a Form Data Instance — the bound schema (ordered
field list), the current string-encoded value of each field, and the
per-field error state populated by validation. -/
structure FormData where
  schema : List Field
  values : String → Option String
  errors : String → Bool

/-- Modelled from the spec: `set(field_name, value)` "stores a string-encoded
value; no validation performed at set-time; overwrites prior value". -/
def FormData.set (d : FormData) (k v : String) : FormData :=
  { d with values := fun k2 => if k2 = k then some v else d.values k2 }

/-- Modelled from the spec: `get<T>` "decodes the stored string into the
requested semantic type; returns absent if unset or decode fails".  This is
`value::<String>(k)`: decoding a string to `String` always succeeds. -/
def FormData.value_str (d : FormData) (k : String) : Option String :=
  d.values k

/-- `value::<EncryptionMethod>(k)`: decode via `EncryptionMethod::from_str`. -/
def FormData.value_method (d : FormData) (k : String) : Option EncryptionMethod :=
  (d.values k).bind EncryptionMethod.from_str

/-- `value::<Algorithm>(k)`: decode via `Algorithm::from_str`. -/
def FormData.value_algo (d : FormData) (k : String) : Option Algorithm :=
  (d.values k).bind Algorithm.from_str

/-- Modelled from the spec: `is_visible` "evaluates the field's
visibility_condition against current values of referenced fields; fields with
no condition are always visible". -/
def FormData.is_visible (d : FormData) (f : Field) : Bool :=
  match f.display with
  | none => true
  | some c =>
    match d.values c.field with
    | some v => c.values.contains v
    | none => false

/-- Modelled from the spec: whether one validator passes on a field.
`Required` "fails iff decoded value is absent/empty". -/
def FormData.validator_passes (d : FormData) (f : Field) : Validator → Bool
  | .required =>
    match d.values f.name with
    | some v => v != ""
    | none => false

/-- Modelled from the spec: a visible field is in error iff some validator
fails; hidden fields "impose no constraints" and are skipped. -/
def FormData.field_has_error (d : FormData) (f : Field) : Bool :=
  d.is_visible f && f.validators.any (fun v => !(d.validator_passes f v))

/-- Modelled from the spec: `validate() -> bool` "returns true iff no field
produced an error", evaluating all fields in schema order. -/
def FormData.validate_form (d : FormData) : Bool :=
  d.schema.all (fun f => !(d.field_has_error f))

/-- Modelled from the spec: the side effect of `validate()` — it
"populates/clears the per-field error mapping" used by the rendering layer. -/
def FormData.run_validate (d : FormData) : FormData :=
  { d with
    errors := fun k =>
      match d.schema.find? (fun f => f.name == k) with
      | some f => d.field_has_error f
      | none => false }

/-- Modelled from the spec: a fresh Form Data Instance bound to a schema,
each field starting at its declared default (absent when no default). -/
def build_form (s : List Field) : FormData :=
  { schema := s
    values := fun k => (s.find? (fun f => f.name == k)).bind (fun f => f.default)
    errors := fun _ => false }

/-! ## The crypto-at-rest schema (crypto.rs, `Builder::build_crypto`,
lines 266-317) -/

/-- `const METHODS` (crypto.rs lines 268-272). -/
def METHODS : List (String × String) :=
  [(EncryptionMethod.PGP.as_str, "OpenPGP"),
   (EncryptionMethod.SMIME.as_str, "S/MIME"),
   ("", "Disabled")]

/-- `const ALGOS` (crypto.rs lines 273-276). -/
def ALGOS : List (String × String) :=
  [(Algorithm.Aes128.as_str, "AES-128"),
   (Algorithm.Aes256.as_str, "AES-256")]

/-- Field `"type"`: single select over METHODS, default `""`, no validators,
always visible (crypto.rs lines 279-285). -/
def type_field : Field :=
  { name := "type"
    typ := .select (.static_opts METHODS) false
    default := some ""
    validators := []
    display := none }

/-- Field `"algo"`: single select over ALGOS, default `"aes256"`, shown iff
`"type"` equals `"pgp"` or `"smime"` (crypto.rs lines 286-299). -/
def algo_field : Field :=
  { name := "algo"
    typ := .select (.static_opts ALGOS) false
    default := some Algorithm.Aes256.as_str
    validators := []
    display := some { field := "type"
                      values := [EncryptionMethod.PGP.as_str,
                                 EncryptionMethod.SMIME.as_str] } }

/-- Field `"certs"`: text, `Required`, shown iff `"type"` equals `"pgp"` or
`"smime"` (crypto.rs lines 300-310). -/
def certs_field : Field :=
  { name := "certs"
    typ := .text
    default := none
    validators := [.required]
    display := some { field := "type"
                      values := [EncryptionMethod.PGP.as_str,
                                 EncryptionMethod.SMIME.as_str] } }

/-- Field `"password"`: text, `Required`, always visible (crypto.rs lines
311-314). -/
def password_field : Field :=
  { name := "password"
    typ := .text
    default := none
    validators := [.required]
    display := none }

/-- The `"crypto-at-rest"` schema registered by `build_crypto`, in builder
order. -/
def crypto_at_rest : List Field :=
  [type_field, algo_field, certs_field, password_field]

/-! ## Domain mapper (crypto.rs, `impl FormData`, lines 226-264) -/

/-- `FormData::from_encryption_params` (crypto.rs lines 228-244). -/
def FormData.from_encryption_params (d : FormData) (params : EncryptionType) : FormData :=
  match params with
  | .PGP algo certs =>
    ((d.set "type" EncryptionMethod.PGP.as_str).set "algo" algo.as_str).set "certs" certs
  | .SMIME algo certs =>
    ((d.set "type" EncryptionMethod.SMIME.as_str).set "algo" algo.as_str).set "certs" certs
  | .Disabled =>
    d.set "type" ""

/-- Result of running Rust code that may hit a failing `.unwrap()`:
`crash` models the panic, `ok` a normal return. -/
inductive RunResult (α : Type) where
  | crash
  | ok (a : α)
deriving DecidableEq, Repr

/-- `FormData::to_encryption_params` (crypto.rs lines 246-263): validate
first, return `None` on failure; otherwise select the variant by the decoded
`"type"` discriminant; the `.unwrap()` calls on `"algo"`/`"certs"` become
`crash` when the value is absent or fails to decode. -/
def FormData.to_encryption_params (d : FormData) : RunResult (Option EncryptionType) :=
  if d.validate_form then
    match d.value_method "type" with
    | some .PGP =>
      match d.value_algo "algo", d.value_str "certs" with
      | some algo, some certs => .ok (some (.PGP algo certs))
      | _, _ => .crash
    | some .SMIME =>
      match d.value_algo "algo", d.value_str "certs" with
      | some algo, some certs => .ok (some (.SMIME algo certs))
      | _, _ => .crash
    | none => .ok (some .Disabled)
  else .ok none

/-- The "Save changes" click handler (crypto.rs lines 210-216): unflatten,
and when a domain value is produced, dispatch it together with
`value("password").unwrap()`; returns the dispatched pair, `none` when
nothing is dispatched, `crash` when an `.unwrap()` fails. -/
def FormData.on_save_click (d : FormData) : RunResult (Option (EncryptionType × String)) :=
  match d.to_encryption_params with
  | .crash => .crash
  | .ok none => .ok none
  | .ok (some changes) =>
    match d.value_str "password" with
    | some p => .ok (some (changes, p))
    | none => .crash

/-! ## HTTP collaborator errors and page-level handling

(crypto.rs `ManageCrypto`, lines 77-224.)  The `http::Error` type is not in
the sources; the pages only distinguish `Error::Unauthorized` from every
other error, so it is modelled with those two cases. -/

/-- Modelled from the spec: the error taxonomy surfaced by the HTTP
collaborator.  `unauthorized` is `http::Error::Unauthorized`; `other` stands
for every remaining transport/server error (matched by the catch-all arms). -/
inductive HttpError where
  | unauthorized
  | other
deriving DecidableEq, Repr

/-- The alerts the crypto page can raise after a submit (crypto.rs lines
119-137). -/
inductive AlertKind where
  | success_enabled
  | success_disabled
  | warning_incorrect_password
  | generic_error
deriving DecidableEq, Repr

/-- The alert chosen from the POST result in `save_changes` (crypto.rs lines
119-137): success message by `is_disable`, `Err(Unauthorized)` becomes the
"Incorrect password" warning, any other error a generic alert. -/
def submit_alert (changes : EncryptionType) : Except HttpError Unit → AlertKind
  | .ok _ =>
    match changes with
    | .Disabled => .success_disabled
    | _ => .success_enabled
  | .error .unauthorized => .warning_incorrect_password
  | .error .other => .generic_error

/-- What the fetch branch of `ManageCrypto` renders (crypto.rs lines
149-201). -/
inductive FetchView where
  | loading
  | redirect (path : String)
  | alerted
  | render (params : EncryptionType)
deriving DecidableEq, Repr

/-- The match on `fetch_crypto.get()` (crypto.rs lines 149-201): still
loading, `Err(Unauthorized)` navigates to `/login`, other errors raise an
alert, success renders the form populated from the fetched parameters. -/
def crypto_fetch_view : Option (Except HttpError EncryptionType) → FetchView
  | none => .loading
  | some (.error .unauthorized) => .redirect "/login"
  | some (.error .other) => .alerted
  | some (.ok c) => .render c

/-- Observable effects of the `save_changes` action body (crypto.rs lines
101-139), in program order.  `navigate` never occurs there; it is included so
that its absence is a provable statement. -/
inductive SubmitEffect where
  | set_pending (b : Bool)
  | http_post (changes : EncryptionType) (password : String)
  | set_alert (a : AlertKind)
  | navigate (path : String)
deriving DecidableEq, Repr

/-- The effect trace of one run of the `save_changes` async block (crypto.rs
lines 106-138), given the result the POST came back with: pending is raised,
the POST happens, pending is lowered (before the result is even inspected),
then the alert for the result is set. -/
def save_changes (changes : EncryptionType) (password : String)
    (result : Except HttpError Unit) : List SubmitEffect :=
  [.set_pending true,
   .http_post changes password,
   .set_pending false,
   .set_alert (submit_alert changes result)]

/-- The value of the pending signal after a list of effects has run,
starting from `init`. -/
def pending_after (init : Bool) : List SubmitEffect → Bool
  | [] => init
  | .set_pending b :: es => pending_after b es
  | _ :: es => pending_after init es

/-! ## Submit exclusivity as a step machine

The page state relevant to claim C8: the `pending` signal (crypto.rs line
95) and the number of in-flight submits.  A click event runs the button
handler (crypto.rs lines 210-219) — which is inert while the button is
disabled, i.e. while `pending` holds — and a dispatched action raises
`pending` at its start; a completion event is the tail of the async block,
lowering `pending` whatever the POST result was. -/

/-- `disabled=pending` on the submit button (crypto.rs line 218). -/
def submit_disabled (pending : Bool) : Bool := pending

/-- Page state: the pending signal and how many submits are in flight. -/
structure UiState where
  pending : Bool
  in_flight : Nat
deriving DecidableEq, Repr

/-- Initial state: `create_signal(false)`, nothing in flight. -/
def initial_state : UiState := { pending := false, in_flight := 0 }

/-- User/runtime events: a click on "Save changes" with the current form
data, or completion of the in-flight POST with its result. -/
inductive UiEvent where
  | click (d : FormData)
  | complete (result : Except HttpError Unit)

/-- One step of the page: a click is ignored while the button is disabled or
when the handler dispatches nothing; otherwise it dispatches and the action
raises pending.  Completion lowers pending on every exit path, success or
failure alike. -/
def ui_step (s : UiState) : UiEvent → UiState
  | .click d =>
    if submit_disabled s.pending then s
    else
      match d.on_save_click with
      | .ok (some _) => { pending := true, in_flight := s.in_flight + 1 }
      | _ => s
  | .complete _ => { pending := false, in_flight := s.in_flight - 1 }

/-! ## Account listing pagination (list.rs) -/

/-- `const PAGE_SIZE: u64 = 1` (list.rs line 14). -/
def PAGE_SIZE : Nat := 1

/-- The total the pagination reads from the listing resource (list.rs lines
68-72): absent resource (still fetching) and fetch errors both fall back to
the default list, whose total is 0. -/
def list_total : Option (Except HttpError Nat) → Nat
  | some (.ok total) => total
  | _ => 0

/-- `(total_items as f64 / PAGE_SIZE as f64).ceil() as u64` (list.rs line
74), as exact ceiling division on naturals. -/
def total_pages (total_items : Nat) : Nat :=
  (total_items + PAGE_SIZE - 1) / PAGE_SIZE

/-- `hide_more_link` (list.rs lines 67-77): the "Next" link is replaced by an
invisible button when the current page is at least the page count or a fetch
is pending. -/
def hide_more_link (page : Nat) (res : Option (Except HttpError Nat))
    (pending : Bool) : Bool :=
  decide (page ≥ total_pages (list_total res)) || pending

/-- The "Prev" control (list.rs lines 340-393): a live link iff
`page() > 1`, otherwise a disabled button. -/
def show_prev (page : Nat) : Bool :=
  decide (page > 1)

/-! ## Helper lemmas -/

/-- Decoding an algorithm's wire string yields the algorithm back. -/
theorem algorithm_decode_encode (a : Algorithm) :
    Algorithm.from_str a.as_str = some a := by
  cases a <;> rfl

/-- Decoding a method's wire string yields the method back. -/
theorem method_decode_encode (m : EncryptionMethod) :
    EncryptionMethod.from_str m.as_str = some m := by
  cases m <;> rfl

/-- The variant's `certs` payload is non-empty (vacuous for `Disabled`);
this is what "the required `certs` field is satisfied" means after
flattening, since flattening copies the payload verbatim. -/
def certs_nonempty : EncryptionType → Prop
  | .PGP _ certs => certs ≠ ""
  | .SMIME _ certs => certs ≠ ""
  | .Disabled => True

/-- The invariant tying the pending signal to the number of in-flight
submits: at most one submit is ever in flight, and pending holds exactly
while it is. -/
def ui_inv (s : UiState) : Prop :=
  s.in_flight ≤ 1 ∧ s.pending = decide (s.in_flight = 1)

/-- Every page event preserves `ui_inv`. -/
theorem ui_step_inv (s : UiState) (e : UiEvent) (h : ui_inv s) :
    ui_inv (ui_step s e) := by
  obtain ⟨h1, h2⟩ := h
  cases e with
  | click d =>
    rw [ui_step]
    cases hp : s.pending with
    | true =>
      simp only [submit_disabled, if_true]
      exact ⟨h1, h2⟩
    | false =>
      have h0 : s.in_flight = 0 := by
        rw [hp] at h2
        have := of_decide_eq_false h2.symm
        omega
      simp only [submit_disabled, Bool.false_eq_true, if_false]
      cases d.on_save_click with
      | crash => exact ⟨h1, h2⟩
      | ok o =>
        cases o with
        | none => exact ⟨h1, h2⟩
        | some pair => exact ⟨by simp [h0], by simp [h0]⟩
  | complete r =>
    refine ⟨by simp [ui_step]; omega, ?_⟩
    have : s.in_flight - 1 = 0 := by omega
    simp [ui_step, this]

/-- From the initial page state, every reachable state satisfies `ui_inv`. -/
theorem ui_inv_reachable (evs : List UiEvent) :
    ui_inv (evs.foldl ui_step initial_state) := by
  have key : ∀ (l : List UiEvent) (s : UiState), ui_inv s → ui_inv (l.foldl ui_step s) := by
    intro l
    induction l with
    | nil => exact fun s h => h
    | cons e es ih => exact fun s h => ih _ (ui_step_inv s e h)
  exact key evs initial_state ⟨by simp [initial_state], by simp [initial_state]⟩

/-! ## Claims -/

/-- C1: Round-trip law — flattening any supported variant (PGP, SMIME,
Disabled) into a fresh crypto-at-rest Form Data Instance with
`from_encryption_params` and, after the required fields are satisfied (a
non-empty `password`; the flattened `certs` payload itself non-empty for the
PGP/SMIME variants), unflattening with `to_encryption_params` yields exactly
that variant. -/
theorem c1_round_trip (V : EncryptionType) (p : String) (hp : p ≠ "")
    (hV : certs_nonempty V) :
    (((build_form crypto_at_rest).from_encryption_params V).set "password" p).to_encryption_params
      = RunResult.ok (some V) := by
  cases V with
  | Disabled =>
    simp [FormData.to_encryption_params, FormData.validate_form, FormData.field_has_error,
      FormData.is_visible, FormData.validator_passes, FormData.value_method, FormData.value_algo,
      FormData.value_str, FormData.set, build_form, crypto_at_rest, type_field, algo_field,
      certs_field, password_field, FormData.from_encryption_params, EncryptionMethod.from_str,
      Algorithm.from_str, EncryptionMethod.as_str, Algorithm.as_str, METHODS, ALGOS, hp]
  | PGP a c =>
    have hc : c ≠ "" := hV
    cases a <;>
    simp [FormData.to_encryption_params, FormData.validate_form, FormData.field_has_error,
      FormData.is_visible, FormData.validator_passes, FormData.value_method, FormData.value_algo,
      FormData.value_str, FormData.set, build_form, crypto_at_rest, type_field, algo_field,
      certs_field, password_field, FormData.from_encryption_params, EncryptionMethod.from_str,
      Algorithm.from_str, EncryptionMethod.as_str, Algorithm.as_str, METHODS, ALGOS, hp, hc]
  | SMIME a c =>
    have hc : c ≠ "" := hV
    cases a <;>
    simp [FormData.to_encryption_params, FormData.validate_form, FormData.field_has_error,
      FormData.is_visible, FormData.validator_passes, FormData.value_method, FormData.value_algo,
      FormData.value_str, FormData.set, build_form, crypto_at_rest, type_field, algo_field,
      certs_field, password_field, FormData.from_encryption_params, EncryptionMethod.from_str,
      Algorithm.from_str, EncryptionMethod.as_str, Algorithm.as_str, METHODS, ALGOS, hp, hc]

/-- Witness for C1 at the concrete variant `PGP Aes256 "CERT"` with password
`"pw"`. -/
theorem c1_round_trip_witness :
    ("pw" : String) ≠ "" ∧ certs_nonempty (.PGP .Aes256 "CERT") ∧
    (((build_form crypto_at_rest).from_encryption_params (.PGP .Aes256 "CERT")).set "password" "pw").to_encryption_params
      = RunResult.ok (some (.PGP .Aes256 "CERT")) :=
  have hc : certs_nonempty (.PGP .Aes256 "CERT") := by
    show ("CERT" : String) ≠ ""
    decide
  ⟨by decide, hc, c1_round_trip (.PGP .Aes256 "CERT") "pw" (by decide) hc⟩

/-- C2 (counterexample): on an otherwise untouched fresh instance, flattening
`Disabled` and unflattening returns `None`, not `Some Disabled` — the
unconditionally required `password` field is empty, so validation fails. -/
theorem c2_fresh_disabled_counterexample :
    ((build_form crypto_at_rest).from_encryption_params .Disabled).to_encryption_params
        = RunResult.ok none ∧
    ((build_form crypto_at_rest).from_encryption_params .Disabled).to_encryption_params
        ≠ RunResult.ok (some .Disabled) := by
  constructor <;> decide

/-- C2 (amended): flattening `Disabled` into a fresh instance and then
satisfying the unconditionally required `password` field makes
`to_encryption_params` return `Some Disabled`. -/
theorem c2_disabled_roundtrip_amended (p : String) (hp : p ≠ "") :
    (((build_form crypto_at_rest).from_encryption_params .Disabled).set "password" p).to_encryption_params
      = RunResult.ok (some .Disabled) := by
  simp [FormData.to_encryption_params, FormData.validate_form, FormData.field_has_error,
    FormData.is_visible, FormData.validator_passes, FormData.value_method, FormData.value_algo,
    FormData.value_str, FormData.set, build_form, crypto_at_rest, type_field, algo_field,
    certs_field, password_field, FormData.from_encryption_params, EncryptionMethod.from_str,
    Algorithm.from_str, EncryptionMethod.as_str, Algorithm.as_str, METHODS, ALGOS, hp]

/-- Witness for the amended C2 at password `"secret"`. -/
theorem c2_disabled_roundtrip_amended_witness :
    (((build_form crypto_at_rest).from_encryption_params .Disabled).set "password" "secret").to_encryption_params
      = RunResult.ok (some .Disabled) :=
  c2_disabled_roundtrip_amended "secret" (by decide)

/-- C3: when validation fails, `to_encryption_params` returns `None`, no
domain value is constructed, and the click handler dispatches nothing. -/
theorem c3_invalid_returns_none (d : FormData) (h : d.validate_form = false) :
    d.to_encryption_params = RunResult.ok none ∧ d.on_save_click = RunResult.ok none := by
  have ht : d.to_encryption_params = RunResult.ok none := by
    rw [FormData.to_encryption_params, h]
    simp
  exact ⟨ht, by rw [FormData.on_save_click, ht]⟩

/-- Witness for C3: a fresh crypto-at-rest instance fails validation (empty
password), so nothing is produced or dispatched. -/
theorem c3_invalid_returns_none_witness :
    (build_form crypto_at_rest).validate_form = false ∧
    (build_form crypto_at_rest).to_encryption_params = RunResult.ok none ∧
    (build_form crypto_at_rest).on_save_click = RunResult.ok none :=
  ⟨by decide, (c3_invalid_returns_none (build_form crypto_at_rest) (by decide)).1,
    (c3_invalid_returns_none (build_form crypto_at_rest) (by decide)).2⟩

/-- C4: if validation succeeds and the `"type"` discriminant decodes to an
absent or unknown `EncryptionMethod`, `to_encryption_params` returns
`Some Disabled`; and `EncryptionMethod::from_str` rejects every string other
than `"pgp"` and `"smime"`. -/
theorem c4_unknown_discriminant_disabled :
    (∀ d : FormData, d.validate_form = true → d.value_method "type" = none →
      d.to_encryption_params = RunResult.ok (some .Disabled)) ∧
    (∀ s : String, s ≠ "pgp" → s ≠ "smime" → EncryptionMethod.from_str s = none) := by
  constructor
  · intro d hv hm
    rw [FormData.to_encryption_params, hv, hm]
    simp
  · intro s h1 h2
    rw [EncryptionMethod.from_str, if_neg h1, if_neg h2]

/-- Witness for C4: a fresh instance with only the password filled validates,
its discriminant (default `""`) decodes to nothing, and unflattening yields
`Disabled`; `from_str "tls"` is rejected. -/
theorem c4_unknown_discriminant_disabled_witness :
    ((build_form crypto_at_rest).set "password" "pw").to_encryption_params
        = RunResult.ok (some .Disabled) ∧
    EncryptionMethod.from_str "tls" = none :=
  ⟨c4_unknown_discriminant_disabled.1 ((build_form crypto_at_rest).set "password" "pw")
      (by decide) (by decide),
    c4_unknown_discriminant_disabled.2 "tls" (by decide) (by decide)⟩

/-- C5: flattening `Disabled` writes only the discriminant `"type"` (to the
empty string) and leaves every other field's value — in particular `"algo"`,
`"certs"`, `"password"` — as well as the error state and schema unchanged. -/
theorem c5_disabled_writes_only_type (d : FormData) :
    (d.from_encryption_params .Disabled).values "type" = some "" ∧
    (∀ k, k ≠ "type" → (d.from_encryption_params .Disabled).values k = d.values k) ∧
    (d.from_encryption_params .Disabled).errors = d.errors ∧
    (d.from_encryption_params .Disabled).schema = d.schema := by
  refine ⟨by simp [FormData.from_encryption_params, FormData.set], ?_, rfl, rfl⟩
  intro k hk
  simp [FormData.from_encryption_params, FormData.set, hk]

/-- Witness for C5 on a fresh instance: the `"algo"` default survives
flattening `Disabled`. -/
theorem c5_disabled_writes_only_type_witness :
    ((build_form crypto_at_rest).from_encryption_params .Disabled).values "algo"
      = (build_form crypto_at_rest).values "algo" :=
  (c5_disabled_writes_only_type (build_form crypto_at_rest)).2.1 "algo" (by decide)

/-- C6: in the crypto-at-rest schema, `"algo"` and `"certs"` are visible
exactly when `"type"` holds `"pgp"` or `"smime"`; whenever they are hidden,
validation records no error for them, regardless of their stored content —
even though `"certs"` carries a `Required` validator. -/
theorem c6_hidden_fields_skip_validation (d : FormData) (hs : d.schema = crypto_at_rest) :
    (d.is_visible algo_field = false → (d.run_validate).errors "algo" = false) ∧
    (d.is_visible certs_field = false → (d.run_validate).errors "certs" = false) ∧
    certs_field.validators = [Validator.required] ∧
    (d.is_visible algo_field = true ↔
      (d.values "type" = some "pgp" ∨ d.values "type" = some "smime")) ∧
    (d.is_visible certs_field = true ↔
      (d.values "type" = some "pgp" ∨ d.values "type" = some "smime")) := by
  have hidden : ∀ (f : Field) (k : String),
      d.schema.find? (fun g => g.name == k) = some f →
      d.is_visible f = false → (d.run_validate).errors k = false := by
    intro f k hfind h
    simp [FormData.run_validate, hfind, FormData.field_has_error, h]
  have hfind_algo : d.schema.find? (fun g => g.name == "algo") = some algo_field := by
    rw [hs]; rfl
  have hfind_certs : d.schema.find? (fun g => g.name == "certs") = some certs_field := by
    rw [hs]; rfl
  have hvis : ∀ f : Field,
      f.display = some { field := "type", values := ["pgp", "smime"] } →
      (d.is_visible f = true ↔
        (d.values "type" = some "pgp" ∨ d.values "type" = some "smime")) := by
    intro f hf
    cases hty : d.values "type" with
    | none => simp [FormData.is_visible, hf, hty]
    | some v => simp [FormData.is_visible, hf, hty, List.contains]
  have hdisp : algo_field.display = some { field := "type", values := ["pgp", "smime"] } := by
    simp [algo_field, EncryptionMethod.as_str]
  have hdisp' : certs_field.display = some { field := "type", values := ["pgp", "smime"] } := by
    simp [certs_field, EncryptionMethod.as_str]
  exact ⟨hidden algo_field "algo" hfind_algo, hidden certs_field "certs" hfind_certs,
    rfl, hvis algo_field hdisp, hvis certs_field hdisp'⟩

/-- Witness for C6 on a fresh instance (discriminant at its default `""`,
both dependent fields hidden): validation reports no error on `"algo"` or
`"certs"`. -/
theorem c6_hidden_fields_skip_validation_witness :
    ((build_form crypto_at_rest).run_validate).errors "algo" = false ∧
    ((build_form crypto_at_rest).run_validate).errors "certs" = false :=
  ⟨(c6_hidden_fields_skip_validation (build_form crypto_at_rest) rfl).1 (by decide),
    (c6_hidden_fields_skip_validation (build_form crypto_at_rest) rfl).2.1 (by decide)⟩

/-- C7: the "Next" link is suppressed exactly when the page is at least the
ceiling of total over page size (equivalently, the total does not exceed
`PAGE_SIZE * page`) or a fetch is pending; for page 3 with total 1 and page
size 1 the "Next" link is suppressed while "Prev" is shown, "Prev" being
shown for every page greater than 1. -/
theorem c7_pagination_links :
    (∀ (page : Nat) (res : Option (Except HttpError Nat)) (pending : Bool),
      hide_more_link page res pending = true ↔
        (list_total res ≤ PAGE_SIZE * page ∨ pending = true)) ∧
    hide_more_link 3 (some (.ok 1)) false = true ∧
    show_prev 3 = true ∧
    (∀ page : Nat, 1 < page → show_prev page = true) := by
  refine ⟨?_, by decide, by decide, ?_⟩
  · intro page res pending
    simp [hide_more_link, total_pages, PAGE_SIZE]
  · intro page h
    simp [show_prev, h]

/-- Witness for C7: "Prev" is shown on page 4. -/
theorem c7_pagination_links_witness : show_prev 4 = true :=
  c7_pagination_links.2.2.2 4 (by decide)

/-- C8: submission is an exclusive one-shot operation — the submit trace
raises pending first and ends with pending lowered on every exit path
(failure included), and, with the button disabled while pending, at most one
submit is ever in flight, pending holding exactly while one is. -/
theorem c8_submit_exclusive :
    (∀ changes password r,
      (save_changes changes password r).head? = some (SubmitEffect.set_pending true)) ∧
    (∀ init changes password r,
      pending_after init (save_changes changes password r) = false) ∧
    (∀ evs : List UiEvent,
      (evs.foldl ui_step initial_state).in_flight ≤ 1 ∧
      ((evs.foldl ui_step initial_state).pending = true ↔
        (evs.foldl ui_step initial_state).in_flight = 1)) := by
  refine ⟨fun _ _ _ => rfl, fun _ _ _ _ => rfl, fun evs => ?_⟩
  obtain ⟨h1, h2⟩ := ui_inv_reachable evs
  refine ⟨h1, by rw [h2]; simp⟩

/-- C9: an `Unauthorized` error while fetching redirects to the login page
rather than raising an inline alert; an incorrect re-authentication password
(the POST coming back `Unauthorized`) is surfaced as the "Incorrect
password" warning alert, and the submit trace never navigates away, so the
form instance stays in place for further editing. -/
theorem c9_unauthorized_handling :
    crypto_fetch_view (some (.error .unauthorized)) = .redirect "/login" ∧
    crypto_fetch_view (some (.error .unauthorized)) ≠ .alerted ∧
    (∀ changes, submit_alert changes (.error .unauthorized) = .warning_incorrect_password) ∧
    (∀ changes password r path,
      SubmitEffect.navigate path ∉ save_changes changes password r) := by
  refine ⟨rfl, by decide, fun _ => rfl, ?_⟩
  intro changes password r path h
  simp [save_changes] at h

/-- C10: on the crypto-at-rest schema, when the `"algo"` field holds one of
the schema's select options (its default `"aes256"` or `"aes128"`) and
validation succeeds, none of the `.unwrap()` calls panic: unflattening never
crashes, the click handler never crashes, and the `"password"` value is
present. -/
theorem c10_unwraps_safe (d : FormData) (hs : d.schema = crypto_at_rest)
    (ha : d.values "algo" = some "aes128" ∨ d.values "algo" = some "aes256")
    (hv : d.validate_form = true) :
    d.to_encryption_params ≠ RunResult.crash ∧ d.on_save_click ≠ RunResult.crash ∧
    (d.value_str "password").isSome = true := by
  have hv' := hv
  rw [FormData.validate_form, hs] at hv'
  simp [crypto_at_rest, type_field, algo_field, certs_field, password_field,
    FormData.field_has_error, FormData.is_visible, FormData.validator_passes,
    METHODS, ALGOS, EncryptionMethod.as_str, Algorithm.as_str] at hv'
  obtain ⟨hcerts, hpw⟩ := hv'
  obtain ⟨pw, hpweq⟩ : ∃ v, d.values "password" = some v := by
    cases h : d.values "password" with
    | none => rw [h] at hpw; simp at hpw
    | some v => exact ⟨v, rfl⟩
  obtain ⟨al, haleq⟩ : ∃ a, d.value_algo "algo" = some a := by
    rcases ha with h | h <;>
      simp [FormData.value_algo, h, Algorithm.from_str]
  have hto : d.to_encryption_params ≠ RunResult.crash := by
    rw [FormData.to_encryption_params, hv]
    simp only [if_true]
    cases hm : d.value_method "type" with
    | none => simp
    | some m =>
      obtain ⟨s, hseq, hsm⟩ : ∃ s, d.values "type" = some s
          ∧ EncryptionMethod.from_str s = some m := by
        rw [FormData.value_method] at hm
        cases h : d.values "type" with
        | none => rw [h] at hm; simp at hm
        | some s => rw [h] at hm; exact ⟨s, rfl, hm⟩
      have hsval : s = "pgp" ∨ s = "smime" := by
        by_contra hcon
        push_neg at hcon
        rw [EncryptionMethod.from_str, if_neg hcon.1, if_neg hcon.2] at hsm
        simp at hsm
      obtain ⟨c, hceq⟩ : ∃ c, d.value_str "certs" = some c := by
        rcases hcerts with h | h
        · rw [hseq] at h
          rcases hsval with rfl | rfl <;> simp at h
        · rw [FormData.value_str]
          cases h2 : d.values "certs" with
          | none => rw [h2] at h; simp at h
          | some c => exact ⟨c, rfl⟩
      cases m <;> simp [haleq, hceq]
  refine ⟨hto, ?_, by simp [FormData.value_str, hpweq]⟩
  rw [FormData.on_save_click]
  cases h : d.to_encryption_params with
  | crash => exact absurd h hto
  | ok o =>
    cases o with
    | none => simp
    | some ch => simp [FormData.value_str, hpweq]

/-- Witness for C10: a flattened PGP configuration with the password filled
in — validation succeeds and neither conversion nor dispatch crashes. -/
theorem c10_unwraps_safe_witness :
    (((build_form crypto_at_rest).from_encryption_params (.PGP .Aes256 "CERT")).set "password" "pw").to_encryption_params
        ≠ RunResult.crash ∧
    (((build_form crypto_at_rest).from_encryption_params (.PGP .Aes256 "CERT")).set "password" "pw").on_save_click
        ≠ RunResult.crash :=
  ⟨(c10_unwraps_safe (((build_form crypto_at_rest).from_encryption_params
        (.PGP .Aes256 "CERT")).set "password" "pw") rfl (Or.inr (by decide)) (by decide)).1,
    (c10_unwraps_safe (((build_form crypto_at_rest).from_encryption_params
        (.PGP .Aes256 "CERT")).set "password" "pw") rfl (Or.inr (by decide)) (by decide)).2.1⟩

end Webadmin
